import Mathlib

/-!
Verification development for the strut repository (github.com/modfin/strut):
a shallow embedding of the schema reflection engine (schema/create.go,
schema/schema.go), the with-package operation options (with/operation.go)
and the route-registration / definition-aggregation layer (strut.go),
together with theorems settling the specification claims.

Machine integers are modelled as Lean Int/Nat with explicit range checks
where the source checks them; Go float64 literal values arising from
strconv parsing are modelled as exact rationals (Rat).  Go maps are
modelled as association lists whose insert overwrites the existing key.
-/

namespace StrutModel

/-! ### Go standard-library string primitives (structural, kernel-evaluable)

These model the exact calls the source makes: strings.Split with a
one-character separator, strings.Contains, strings.TrimSpace,
strconv.Atoi / ParseInt(s,10,64), strconv.ParseFloat(s,64),
strconv.ParseBool, and filepath.Base. -/

/-- Split a character list at every occurrence of `sep`
    (models strings.Split with a single-character separator;
    Split of the empty string yields one empty part, as in Go). -/
def splitCh (sep : Char) : List Char → List (List Char)
  | [] => [[]]
  | c :: rest =>
    let r := splitCh sep rest
    if c = sep then [] :: r
    else
      match r with
      | h :: t => (c :: h) :: t
      | [] => [[c]]

/-- strings.Split s "," (the only separator the source uses). -/
def goSplit (sep : Char) (s : String) : List String :=
  (splitCh sep s.data).map String.mk

/-- Whether `sub` occurs as a prefix of `l`. -/
def isPre : List Char → List Char → Bool
  | [], _ => true
  | _ :: _, [] => false
  | a :: as, b :: bs => a = b && isPre as bs

/-- strings.Contains: `sub` occurs as a contiguous substring of `s`. -/
def strContains (s sub : String) : Bool :=
  go s.data
where
  go : List Char → Bool
  | [] => isPre sub.data []
  | c :: rest => isPre sub.data (c :: rest) || go rest

/-- ASCII whitespace (the subset of unicode.IsSpace relevant to struct tags). -/
def isSpaceCh (c : Char) : Bool :=
  c.toNat = 32 || c.toNat = 9 || c.toNat = 10 || c.toNat = 11 ||
  c.toNat = 12 || c.toNat = 13

/-- strings.TrimSpace restricted to ASCII whitespace. -/
def goTrimSpace (s : String) : String :=
  String.mk ((((s.data.dropWhile isSpaceCh).reverse).dropWhile isSpaceCh).reverse)

/-- Value of a decimal digit character, if it is one. -/
def digitVal (c : Char) : Option Nat :=
  if 48 ≤ c.toNat ∧ c.toNat ≤ 57 then some (c.toNat - 48) else none

/-- Reads a nonempty all-digit character list as a natural number. -/
def natOfDigits : List Char → Option Nat
  | [] => none
  | l => go l 0
where
  go : List Char → Nat → Option Nat
  | [], acc => some acc
  | c :: rest, acc =>
    match digitVal c with
    | some d => go rest (acc * 10 + d)
    | none => none

/-- Longest digit prefix of a character list, with the remainder. -/
def takeDigits (l : List Char) : List Char × List Char :=
  (l.takeWhile (fun c => (digitVal c).isSome), l.dropWhile (fun c => (digitVal c).isSome))

/-- strconv.ParseInt(s, 10, 64): optional sign, nonempty digits, nothing
    else, and the value must fit in a signed 64-bit integer. -/
def parseGoInt64 (s : String) : Option Int :=
  match s.data with
  | '+' :: rest => (natOfDigits rest).bind inRangePos
  | '-' :: rest => (natOfDigits rest).bind inRangeNeg
  | l => (natOfDigits l).bind inRangePos
where
  inRangePos (n : Nat) : Option Int :=
    if n ≤ 2 ^ 63 - 1 then some (n : Int) else none
  inRangeNeg (n : Nat) : Option Int :=
    if n ≤ 2 ^ 63 then some (-(n : Int)) else none

/-- strconv.Atoi (64-bit platform): identical domain to ParseInt(s,10,64). -/
def goAtoi (s : String) : Option Int := parseGoInt64 s

/-- strconv.ParseFloat(s, 64) on plain decimal input:
    `[+-]? digits [. digits] [(e|E) [+-]? digits]` with at least one
    mantissa digit.  The parsed value is kept as an exact rational rather
    than rounded to binary64; the "inf"/"nan"/hex-float spellings and the
    overflow-to-infinity range error are not modelled (no claim uses them). -/
def parseGoFloat (s : String) : Option Rat :=
  let (sign, l) :=
    match s.data with
    | '+' :: r => ((1 : Int), r)
    | '-' :: r => ((-1 : Int), r)
    | l => ((1 : Int), l)
  let (d1, l) := takeDigits l
  let (d2, l) :=
    match l with
    | '.' :: r => takeDigits r
    | _ => ([], l)
  if d1 = [] ∧ d2 = [] then none
  else
    match natOfDigits (d1 ++ d2 ++ ['0']) with
    | none => none
    | some mant0 =>
      -- mant0 = mantissa * 10 (the appended digit keeps the list nonempty)
      let mant := mant0 / 10
      match l with
      | [] => some (mkRat (sign * mant) (10 ^ d2.length))
      | 'e' :: r => withExp sign mant d2.length r
      | 'E' :: r => withExp sign mant d2.length r
      | _ => none
where
  withExp (sign : Int) (mant : Nat) (frac : Nat) (r : List Char) : Option Rat :=
    let (esign, r) :=
      match r with
      | '+' :: r2 => (true, r2)
      | '-' :: r2 => (false, r2)
      | _ => (true, r)
    let (ed, r) := takeDigits r
    if ed = [] ∨ r ≠ [] then none
    else
      match natOfDigits ed with
      | none => none
      | some e =>
        if esign then some (mkRat (sign * mant * 10 ^ e) (10 ^ frac))
        else some (mkRat (sign * mant) (10 ^ (frac + e)))

/-- strconv.ParseBool: the exact set of accepted literals. -/
def parseGoBool (s : String) : Option Bool :=
  if s = "1" ∨ s = "t" ∨ s = "T" ∨ s = "TRUE" ∨ s = "true" ∨ s = "True" then some true
  else if s = "0" ∨ s = "f" ∨ s = "F" ∨ s = "FALSE" ∨ s = "false" ∨ s = "False" then some false
  else none

/-- filepath.Base: last non-empty slash-separated element;
    "." for the empty path, "/" when the path is all slashes. -/
def filepathBase (p : String) : String :=
  if p = "" then "."
  else
    match ((goSplit '/' p).filter (fun x => x ≠ "")).getLast? with
    | some l => l
    | none => "/"

/-! ### Go maps as association lists

Every string-keyed Go map of the source is modelled as an association
list.  `alInsert` is map assignment `m[k] = v` (overwrite in place or
append), `alLookup` is indexing (`none` is Go's zero-value/nil miss),
`alUpdate` is mutation through the stored pointer, and `countKey` counts
the entries stored under a key. -/

def alInsert {α : Type} (k : String) (v : α) : List (String × α) → List (String × α)
  | [] => [(k, v)]
  | (k', v') :: rest => if k' = k then (k, v) :: rest else (k', v') :: alInsert k v rest

def alLookup {α : Type} (k : String) : List (String × α) → Option α
  | [] => none
  | (k', v') :: rest => if k' = k then some v' else alLookup k rest

def alUpdate {α : Type} (k : String) (f : α → α) : List (String × α) → List (String × α)
  | [] => []
  | (k', v') :: rest => if k' = k then (k', f v') :: rest else (k', v') :: alUpdate k f rest

def countKey {α : Type} (k : String) (l : List (String × α)) : Nat :=
  (l.filter (fun p => p.1 == k)).length

/-! ### The schema model (src/schema/schema.go)

Go's `type JSONType string` is modelled as String, with the constants
"object", "array", "string", "number", "integer", "boolean" used as
literals; the zero value "" is the unset kind.  Pointer-valued fields
(`*float64`, `*int`, `*string`) become Option; `Required []string` and
the maps become Option-of-list so that Go's nil/non-nil distinction is
kept where the source depends on it.  `Enum []interface{}` entries are
modelled by `EnumVal`, whose `nilV` constructor is the Go nil interface
left in an unassigned slot. -/

abbrev JSONType := String

/-- One entry of the Go `[]interface{}` enum slice. -/
inductive EnumVal where
  | nilV
  | str (s : String)
  | int (n : Int)
  | float (q : Rat)
  | bool (b : Bool)
deriving DecidableEq, Repr

/-- The non-recursive fields of schema.JSON. -/
structure JSONBase where
  ref : String := ""
  description : String := ""
  type : JSONType := ""
  nullable : Bool := false
  enum : List EnumVal := []
  required : Option (List String) := none
  maximum : Option Rat := none
  minimum : Option Rat := none
  exclusiveMaximum : Option Rat := none
  exclusiveMinimum : Option Rat := none
  maxLength : Option Int := none
  minLength : Option Int := none
  pattern : Option String := none
  format : Option String := none
  maxItems : Option Int := none
  minItems : Option Int := none
deriving DecidableEq, Repr

/-- schema.JSON: the base fields plus the four recursive fields
    ($defs, properties, additionalProperties, items).  A `none` map or
    sub-schema is Go's nil. -/
inductive JSON where
  | mk (base : JSONBase)
       (defs : Option (List (String × JSON)))
       (properties : Option (List (String × JSON)))
       (additionalProperties : Option JSON)
       (items : Option JSON)

def JSON.base : JSON → JSONBase
  | .mk b _ _ _ _ => b

def JSON.defs : JSON → Option (List (String × JSON))
  | .mk _ d _ _ _ => d

def JSON.properties : JSON → Option (List (String × JSON))
  | .mk _ _ p _ _ => p

def JSON.additionalProperties : JSON → Option JSON
  | .mk _ _ _ a _ => a

def JSON.items : JSON → Option JSON
  | .mk _ _ _ _ i => i

/-- Update the non-recursive fields. -/
def JSON.modBase (f : JSONBase → JSONBase) : JSON → JSON
  | .mk b d p a i => .mk (f b) d p a i

def JSON.setProperties (v : Option (List (String × JSON))) : JSON → JSON
  | .mk b d _ a i => .mk b d v a i

def JSON.setAdditionalProperties (v : Option JSON) : JSON → JSON
  | .mk b d p _ i => .mk b d p v i

def JSON.setItems (v : Option JSON) : JSON → JSON
  | .mk b d p a _ => .mk b d p a v

/-- The Go zero value &schema.JSON{}. -/
def JSON.empty : JSON := .mk {} none none none none

/-- A schema holding only a $ref (the &schema.JSON{Ref: r} the source builds). -/
def JSON.refOnly (r : String) : JSON := .mk { ref := r } none none none none

def JSON.type (j : JSON) : JSONType := j.base.type
def JSON.nullable (j : JSON) : Bool := j.base.nullable
def JSON.required (j : JSON) : Option (List String) := j.base.required
def JSON.enum (j : JSON) : List EnumVal := j.base.enum
def JSON.description (j : JSON) : String := j.base.description
def JSON.minimum (j : JSON) : Option Rat := j.base.minimum
def JSON.maximum (j : JSON) : Option Rat := j.base.maximum
def JSON.exclusiveMinimum (j : JSON) : Option Rat := j.base.exclusiveMinimum
def JSON.exclusiveMaximum (j : JSON) : Option Rat := j.base.exclusiveMaximum
def JSON.ref (j : JSON) : String := j.base.ref

def JSON.withNullable (x : Bool) (j : JSON) : JSON :=
  j.modBase (fun b => { b with nullable := x })

def JSON.withRequired (x : Option (List String)) (j : JSON) : JSON :=
  j.modBase (fun b => { b with required := x })

/-- schema.Required = append(schema.Required, name); appending to a Go nil
    slice creates a one-element slice. -/
def JSON.pushRequired (name : String) (j : JSON) : JSON :=
  j.withRequired (some ((j.required.getD []) ++ [name]))

@[simp] theorem JSON.base_mk (b d p a i) : (JSON.mk b d p a i).base = b := rfl
@[simp] theorem JSON.defs_mk (b d p a i) : (JSON.mk b d p a i).defs = d := rfl
@[simp] theorem JSON.properties_mk (b d p a i) : (JSON.mk b d p a i).properties = p := rfl
@[simp] theorem JSON.addProps_mk (b d p a i) : (JSON.mk b d p a i).additionalProperties = a := rfl
@[simp] theorem JSON.items_mk (b d p a i) : (JSON.mk b d p a i).items = i := rfl

@[simp] theorem JSON.base_modBase (f : JSONBase → JSONBase) (j : JSON) :
    (j.modBase f).base = f j.base := by cases j; rfl
@[simp] theorem JSON.properties_modBase (f : JSONBase → JSONBase) (j : JSON) :
    (j.modBase f).properties = j.properties := by cases j; rfl
@[simp] theorem JSON.items_modBase (f : JSONBase → JSONBase) (j : JSON) :
    (j.modBase f).items = j.items := by cases j; rfl
@[simp] theorem JSON.addProps_modBase (f : JSONBase → JSONBase) (j : JSON) :
    (j.modBase f).additionalProperties = j.additionalProperties := by cases j; rfl
@[simp] theorem JSON.defs_modBase (f : JSONBase → JSONBase) (j : JSON) :
    (j.modBase f).defs = j.defs := by cases j; rfl

@[simp] theorem JSON.base_setProperties (v) (j : JSON) :
    (j.setProperties v).base = j.base := by cases j; rfl
@[simp] theorem JSON.properties_setProperties (v) (j : JSON) :
    (j.setProperties v).properties = v := by cases j; rfl
@[simp] theorem JSON.items_setProperties (v) (j : JSON) :
    (j.setProperties v).items = j.items := by cases j; rfl
@[simp] theorem JSON.base_setItems (v) (j : JSON) :
    (j.setItems v).base = j.base := by cases j; rfl
@[simp] theorem JSON.items_setItems (v) (j : JSON) :
    (j.setItems v).items = v := by cases j; rfl
@[simp] theorem JSON.base_setAdditionalProperties (v) (j : JSON) :
    (j.setAdditionalProperties v).base = j.base := by cases j; rfl

/-! ### Go runtime types (the reflect.Type values the engine walks)

A finite tree of Go type descriptors: pointer, struct (with its package
path, type name and fields), map, slice, array, the scalar kinds, and
the kinds the source's switch does not handle (chan, func, interface,
complex, uintptr).  A struct field carries its Go name, exportedness,
struct-tag key/value pairs, and its type. -/

mutual
inductive GoType where
  | ptr (elem : GoType)
  | structT (pkgPath : String) (tname : String) (fields : List GoField)
  | mapT (key : GoType) (value : GoType)
  | sliceT (elem : GoType)
  | arrayT (elem : GoType)
  | stringT
  | intT
  | int8T
  | int16T
  | int32T
  | int64T
  | uintT
  | uint8T
  | uint16T
  | uint32T
  | uint64T
  | float32T
  | float64T
  | boolT
  | chanT
  | funcT
  | interfaceT
  | complex64T
  | complex128T
  | uintptrT

inductive GoField where
  | mk (fname : String) (exported : Bool) (tags : List (String × String)) (ftype : GoType)
end

def GoField.fname : GoField → String
  | .mk n _ _ _ => n

def GoField.exported : GoField → Bool
  | .mk _ e _ _ => e

def GoField.tags : GoField → List (String × String)
  | .mk _ _ ts _ => ts

def GoField.ftype : GoField → GoType
  | .mk _ _ _ t => t

/-- reflect.StructTag.Get: value of the first matching key, "" if absent. -/
def tagGet (tags : List (String × String)) (key : String) : String :=
  match tags with
  | [] => ""
  | (k, v) :: rest => if k = key then v else tagGet rest key

/-- reflect.Type.Name(): the declared name (our model names struct types only;
    other types reflect as unnamed, giving ""). -/
def GoType.tnameOf : GoType → String
  | .structT _ n _ => n
  | _ => ""

/-- reflect.Type.PkgPath(): the defining package path ("" for unnamed types). -/
def GoType.pkgPathOf : GoType → String
  | .structT p _ _ => p
  | _ => ""

/-- Whether the type's reflect.Kind is Ptr. -/
def GoType.isPtr : GoType → Bool
  | .ptr _ => true
  | _ => false

/-- Number of leading pointer constructors. -/
def GoType.ptrDepth : GoType → Nat
  | .ptr e => e.ptrDepth + 1
  | _ => 0

/-! ### The reflection engine (schema.From and helpers, src/schema/create.go)

`typeToSchema` takes the type after the function's own single pointer
unwrap and runs the kind switch via `typeKindSwitch`; `structLoop` is the
field loop of the Struct case; `fieldToSchema` applies the tag overrides.
The recursion is exactly the source's; the source's in-place mutation of
one schema value becomes sequential functional update. -/

/-- getIntFromField: Atoi the tag value, nil when absent or unparseable. -/
def getIntFromField (f : GoField) (key : String) : Option Int :=
  let v := tagGet f.tags key
  if v ≠ "" then
    match goAtoi v with
    | some i => some i
    | none => none
  else none

/-- getFloat64Ptr: ParseFloat the string, nil when empty or unparseable. -/
def getFloat64Ptr (v : String) : Option Rat :=
  if v ≠ "" then
    match parseGoFloat v with
    | some f => some f
    | none => none
  else none

/-- The element type whose kind drives enum-token parsing in parseEnum:
    unwrap one pointer, then take a slice's element type. -/
def enumElemType (t : GoType) : GoType :=
  let t := match t with
    | .ptr e => e
    | _ => t
  match t with
  | .sliceT e => e
  | _ => t

/-- One token of parseEnum's loop: TrimSpace, then parse by the field's
    element kind; an unrecognized kind or a failed parse leaves the
    pre-allocated slot at the Go nil interface value. -/
def enumToken (t : GoType) (v : String) : EnumVal :=
  let v := goTrimSpace v
  match t with
  | .stringT => .str v
  | .intT | .int8T | .int16T | .int32T | .int64T =>
    match parseGoInt64 v with
    | some n => .int n
    | none => .nilV
  | .float32T | .float64T =>
    match parseGoFloat v with
    | some f => .float f
    | none => .nilV
  | .boolT =>
    match parseGoBool v with
    | some b => .bool b
    | none => .nilV
  | _ => .nilV

/-- parseEnum: split on commas into a pre-allocated slice and fill each
    slot whose token parses (the unsigned and other kinds have no case in
    the source's switch, so their slots all stay nil). -/
def parseEnum (enumStr : String) (f : GoField) : List EnumVal :=
  (goSplit ',' enumStr).map (enumToken (enumElemType f.ftype))

/-- The external (wire) name of a struct field: the first comma-separated
    part of the json tag, defaulting to the Go field name when empty. -/
def structFieldName (f : GoField) : String :=
  let name0 := (goSplit ',' (tagGet f.tags "json")).headD ""
  if name0 = "" then f.fname else name0

mutual

/-- typeToSchema: single pointer unwrap setting Nullable, then the kind
    switch on the (possibly unwrapped) type. -/
def typeToSchema : GoType → JSON
  | .ptr e => typeKindSwitch e (JSON.empty.withNullable true)
  | t => typeKindSwitch t JSON.empty
termination_by t => 2 * sizeOf t + 1

/-- The kind switch of typeToSchema; kinds without a case (including a
    remaining Ptr) leave the schema unchanged. -/
def typeKindSwitch (t : GoType) (schema : JSON) : JSON :=
  match t with
  | .mapT _ value =>
    ((schema.modBase (fun b => { b with type := "object" })).setProperties
        (some [])).setAdditionalProperties (some (typeToSchema value))
  | .structT _ _ fields =>
    let schema :=
      ((schema.modBase (fun b => { b with type := "object" })).setProperties
          (some [])).withRequired (some [])
    let schema := structLoop fields schema
    if (schema.required.getD []).length = 0 then schema.withRequired none else schema
  | .sliceT e =>
    (schema.modBase (fun b => { b with type := "array" })).setItems (some (typeToSchema e))
  | .arrayT e =>
    (schema.modBase (fun b => { b with type := "array" })).setItems (some (typeToSchema e))
  | .stringT => schema.modBase (fun b => { b with type := "string" })
  | .intT | .int8T | .int16T | .int32T | .int64T
  | .uintT | .uint8T | .uint16T | .uint32T | .uint64T =>
    schema.modBase (fun b => { b with type := "integer" })
  | .float32T | .float64T => schema.modBase (fun b => { b with type := "number" })
  | .boolT => schema.modBase (fun b => { b with type := "boolean" })
  | _ => schema
termination_by 2 * sizeOf t

/-- The field loop of the Struct case: skip unexported fields, read the
    json tag name (sentinel "-" skips the field, "" falls back to the Go
    name), append to Required unless the tag contains "omitempty", and
    store the field schema under the external name (fieldToSchema never
    returns a Go nil, so the source's nil guard always stores). -/
def structLoop (fields : List GoField) (schema : JSON) : JSON :=
  match fields with
  | [] => schema
  | f :: rest => structLoop rest (structStep f schema)
termination_by 2 * sizeOf fields
decreasing_by
  all_goals simp_wf
  all_goals first
    | omega
    | (have h1 : 0 < sizeOf rest := by cases rest <;> simp_arith
       omega)

/-- Store the field's schema in Properties under the external name. -/
def structAdd (f : GoField) (schema : JSON) : JSON :=
  schema.setProperties
    (some (alInsert (structFieldName f) (fieldToSchema f) (schema.properties.getD [])))
termination_by 2 * sizeOf f + 2

/-- One iteration of the struct field loop, for the field `f`: skip
    unexported fields and a "-" json name, append to Required unless the
    json tag contains "omitempty", and store the field schema
    (fieldToSchema never returns a Go nil, so the source's nil guard
    always stores). -/
def structStep (f : GoField) (schema : JSON) : JSON :=
  if !f.exported then schema
  else if (goSplit ',' (tagGet f.tags "json")).headD "" = "-" then schema
  else
    structAdd f
      (if !strContains (tagGet f.tags "json") "omitempty"
       then schema.pushRequired (structFieldName f) else schema)
termination_by 2 * sizeOf f + 3

/-- fieldToSchema: reflect the field type, then apply the tag overrides in
    source order (description, type, numeric bounds, array bounds, string
    bounds, enum). -/
def fieldToSchema : GoField → JSON
  | .mk fn ex ts ft =>
  let f : GoField := .mk fn ex ts ft
  let schema := typeToSchema ft
  let desc := tagGet f.tags "json-description"
  let schema := if desc ≠ "" then schema.modBase (fun b => { b with description := desc }) else schema
  let typeName := tagGet f.tags "json-type"
  let schema := if typeName ≠ "" then schema.modBase (fun b => { b with type := typeName }) else schema
  let schema :=
    if schema.type = "number" ∨ schema.type = "integer" then
      let schema := match getFloat64Ptr (tagGet f.tags "json-maximum") with
        | some incmax => schema.modBase (fun b => { b with maximum := some incmax })
        | none => schema
      let schema := match getFloat64Ptr (tagGet f.tags "json-minimum") with
        | some incmin => schema.modBase (fun b => { b with minimum := some incmin })
        | none => schema
      let schema := match getFloat64Ptr (tagGet f.tags "json-exclusive-maximum") with
        | some excMax => schema.modBase (fun b => { b with exclusiveMaximum := some excMax })
        | none => schema
      match getFloat64Ptr (tagGet f.tags "json-exclusive-minimum") with
      | some excMin => schema.modBase (fun b => { b with exclusiveMinimum := some excMin })
      | none => schema
    else schema
  let schema :=
    if schema.type = "array" then
      let schema := match getIntFromField f "json-max-items" with
        | some maxItems => schema.modBase (fun b => { b with maxItems := some maxItems })
        | none => schema
      match getIntFromField f "json-min-items" with
      | some minItems => schema.modBase (fun b => { b with minItems := some minItems })
      | none => schema
    else schema
  let schema :=
    if schema.type = "string" then
      let schema := match getIntFromField f "json-max-length" with
        | some maxLen => schema.modBase (fun b => { b with maxLength := some maxLen })
        | none => schema
      let schema := match getIntFromField f "json-min-length" with
        | some minLen => schema.modBase (fun b => { b with minLength := some minLen })
        | none => schema
      let format := tagGet f.tags "json-format"
      let schema := if format ≠ "" then schema.modBase (fun b => { b with format := some format }) else schema
      let pattern := tagGet f.tags "json-pattern"
      if pattern ≠ "" then schema.modBase (fun b => { b with pattern := some pattern }) else schema
    else schema
  if schema.type = "array" then
    let enum := tagGet f.tags "json-enum"
    match schema.items with
    | some it =>
      if enum ≠ "" ∧ it.enum.length = 0 ∧
          (it.type = "string" ∨ it.type = "number" ∨ it.type = "integer" ∨ it.type = "boolean") then
        schema.setItems (some (it.modBase (fun b => { b with enum := parseEnum enum f })))
      else schema
    | none => schema
  else if schema.type = "string" ∨ schema.type = "number" ∨
      schema.type = "integer" ∨ schema.type = "boolean" then
    let enum := tagGet f.tags "json-enum"
    if enum ≠ "" then schema.modBase (fun b => { b with enum := parseEnum enum f }) else schema
  else schema
termination_by f => 2 * sizeOf f + 1

end

/-- From: unwrap one top-level pointer, reflect, force Nullable to the
    unwrap flag (for a non-nil argument; reflect.TypeOf has already
    produced the dynamic type). -/
def From (t : GoType) : JSON :=
  match t with
  | .ptr e => (typeToSchema e).withNullable true
  | t => (typeToSchema t).withNullable false

/-- From applied to an arbitrary interface argument: `none` is the nil
    interface value, for which reflect.TypeOf yields a nil reflect.Type
    and the method call t.Kind() faults (a nil-dereference panic), so no
    schema is returned. -/
def FromNilable : Option GoType → Option JSON
  | none => none
  | some t => some (From t)

/-! ### The OpenAPI document model (swag types used by src/strut.go)

Plain records mirroring Definition, Info, Path, Operation, Param,
RequestBody, Response and MediaType.  Pointer-valued fields become
Option; nil-able maps become Option-of-association-list.  `Param.In` is
spelled `inLoc` because `in` is a Lean keyword; `MediaType`'s Example /
Examples / Encoding fields are never touched by the modelled code and
are omitted. -/

structure Param where
  name : String := ""
  inLoc : String := ""
  description : String := ""
  required : Bool := false
  deprecated : Bool := false
  allowEmptyValue : Bool := false
  schema : Option JSON := none

structure MediaType where
  schema : Option JSON := none

structure Response where
  description : String := ""
  content : Option (List (String × MediaType)) := none

structure RequestBody where
  required : Bool := false
  description : String := ""
  content : Option (List (String × MediaType)) := none

structure Operation where
  tags : List String := []
  summary : String := ""
  description : String := ""
  operationID : String := ""
  parameters : List Param := []
  requestBody : Option RequestBody := none
  responses : Option (List (String × Response)) := none
  deprecated : Bool := false

structure Path where
  summary : String := ""
  description : String := ""
  parameters : List Param := []
  post : Option Operation := none
  get : Option Operation := none
  put : Option Operation := none
  delete : Option Operation := none

structure Info where
  title : String := ""
  description : String := ""
  version : String := ""

structure Server where
  url : String := ""
  description : String := ""

structure Components where
  schemas : List (String × JSON) := []

structure Definition where
  openapi : String := ""
  info : Info := {}
  paths : List (String × Path) := []
  components : Components := {}
  servers : List Server := []

/-- strut.New's initial Definition. -/
def New : Definition :=
  { openapi := "3.0.3"
    info := { title := "strut", description := "strut", version := "v0.0.1" }
    paths := []
    components := { schemas := [] }
    servers := [] }

/-- OpConfig — the source mutates *Operation in place; modelled as a
    function on Operation. -/
abbrev OpConfig := Operation → Operation

/-- assignOperation: start from the zero Operation and run the options in
    caller order. -/
def assignOperation (ops : List OpConfig) : Operation :=
  ops.foldl (fun op o => o op) {}

/-! ### The with package (src/with/operation.go) — the options the claims use. -/

/-- with.Description. -/
def With.Description (d : String) : OpConfig :=
  fun op => { op with description := d }

/-- `op.Responses[statusCode].Description = description`. -/
def respSetDesc (d : String) (r : Response) : Response :=
  { r with description := d }

/-- with.ResponseDescription: create the Responses map and the status
    entry when missing, then set only that entry's Description
    (the status key is fmt.Sprintf("%d", code)). -/
def With.ResponseDescription (code : Int) (description : String) : OpConfig :=
  fun op =>
    let rs := op.responses.getD []
    let statusCode := toString code
    let rs := if (alLookup statusCode rs).isNone then alInsert statusCode {} rs else rs
    let rs := alUpdate statusCode (respSetDesc description) rs
    { op with responses := some rs }


/-- with.PathParam: appends a Param with In: "path" and Required: true
    (the schema comes from reflecting the type argument's zero value). -/
def With.PathParam (name description : String) (t : GoType) : OpConfig :=
  fun op =>
    { op with
      parameters := op.parameters ++
        [{ name := name
           inLoc := "path"
           description := description
           schema := some (From t)
           required := true }] }

/-- with.QueryParam: same, but In: "query" and no Required override. -/
def With.QueryParam (name description : String) (t : GoType) : OpConfig :=
  fun op =>
    { op with
      parameters := op.parameters ++
        [{ name := name
           inLoc := "query"
           description := description
           schema := some (From t) }] }

/-! ### Schema registration and route binding (src/strut.go)

The HTTP side of Post/Get/Put/Delete (mux registration, per-request
decode/encode) is outside the model; what is modelled is every mutation
they perform on the Definition and the Operation. -/

/-- The component name "<package>_<TypeName>" derived in
    assignRequest/assignResponse. -/
def schemaUri (t : GoType) : String :=
  filepathBase t.pkgPathOf ++ "_" ++ t.tnameOf

/-- The reference string "#/components/schemas/<name>". -/
def schemaRef (t : GoType) : String :=
  "#/components/schemas/" ++ schemaUri t

/-- assignRequest: store the reflected schema in components.schemas under
    the derived name, default the RequestBody and its Content map, then
    set Content["application/json"] to a ref-only schema. -/
def assignRequest (t : GoType) (s : Definition) (op : Operation) : Definition × Operation :=
  let reqSchema := From t
  let s := { s with components := { schemas := alInsert (schemaUri t) reqSchema s.components.schemas } }
  let op := if op.requestBody.isNone then { op with requestBody := some {} } else op
  let op :=
    match op.requestBody with
    | some rb =>
      let rb := if rb.content.isNone then { rb with content := some [] } else rb
      let mt : MediaType := { schema := some (JSON.refOnly (schemaRef t)) }
      let rb := { rb with content := some (alInsert "application/json" mt (rb.content.getD [])) }
      { op with requestBody := some rb }
    | none => op
  (s, op)

/-- The &MediaType{Schema: &schema.JSON{Ref: ...}} value the automatic
    request/response injection writes for type `t`. -/
def refMedia (t : GoType) : MediaType :=
  { schema := some (JSON.refOnly (schemaRef t)) }

/-- `if resp.Content == nil { resp.Content = map[string]MediaType{} }`. -/
def respDefault (r : Response) : Response :=
  if r.content.isNone then { r with content := some [] } else r

/-- `resp.Content["application/json"] = MediaType{Schema: ref}`. -/
def respSetContent (t : GoType) (r : Response) : Response :=
  { r with content := some (alInsert "application/json" (refMedia t) (r.content.getD [])) }

/-- assignResponse: store the reflected schema in components.schemas
    under the derived name, default the Responses map, reuse or create
    the "200" entry, default its Content map, then set
    Content["application/json"] to a ref-only schema. -/
def assignResponse (t : GoType) (s : Definition) (op : Operation) : Definition × Operation :=
  let resSchema := From t
  let s := { s with components := { schemas := alInsert (schemaUri t) resSchema s.components.schemas } }
  let op := if op.responses.isNone then { op with responses := some [] } else op
  let rs := op.responses.getD []
  let rs := if (alLookup "200" rs).isNone then alInsert "200" ({} : Response) rs else rs
  let rs := alUpdate "200" respDefault rs
  let rs := alUpdate "200" (respSetContent t) rs
  (s, { op with responses := some rs })

/-- getPath's side effect: create the Path entry when the path is absent
    (the returned pointer is the stored entry). -/
def getPathEnsure (s : Definition) (path : String) : Definition :=
  if (alLookup path s.paths).isNone then { s with paths := alInsert path ({} : Path) s.paths } else s

/-- strut.Get: build the Operation from the options, store it at the
    path's Get slot, then inject the response schema.  The source stores
    the *Operation before assignResponse mutates it through the pointer;
    the model equivalently stores the final value. -/
def Get (t : GoType) (s : Definition) (path : String) (ops : List OpConfig) : Definition :=
  let op := assignOperation ops
  let s := getPathEnsure s path
  let (s, op) := assignResponse t s op
  { s with paths := alUpdate path (fun pi => { pi with get := some op }) s.paths }

/-- strut.Delete: as Get, into the Delete slot. -/
def Delete (t : GoType) (s : Definition) (path : String) (ops : List OpConfig) : Definition :=
  let op := assignOperation ops
  let s := getPathEnsure s path
  let (s, op) := assignResponse t s op
  { s with paths := alUpdate path (fun pi => { pi with delete := some op }) s.paths }

/-- strut.Post: as Get, but the request schema is injected first and the
    Operation lands in the Post slot. -/
def Post (treq tres : GoType) (s : Definition) (path : String) (ops : List OpConfig) : Definition :=
  let op := assignOperation ops
  let s := getPathEnsure s path
  let (s, op) := assignRequest treq s op
  let (s, op) := assignResponse tres s op
  { s with paths := alUpdate path (fun pi => { pi with post := some op }) s.paths }

/-- strut.Put: as Post, into the Put slot. -/
def Put (treq tres : GoType) (s : Definition) (path : String) (ops : List OpConfig) : Definition :=
  let op := assignOperation ops
  let s := getPathEnsure s path
  let (s, op) := assignRequest treq s op
  let (s, op) := assignResponse tres s op
  { s with paths := alUpdate path (fun pi => { pi with put := some op }) s.paths }

/-! ### Association list lemmas -/

theorem alLookup_alInsert {α : Type} (k q : String) (v : α) (l : List (String × α)) :
    alLookup q (alInsert k v l) = if k = q then some v else alLookup q l := by
  induction l with
  | nil => simp [alInsert, alLookup]
  | cons p rest ih =>
    obtain ⟨a, b⟩ := p
    by_cases hak : a = k
    · subst hak
      by_cases haq : a = q <;> simp [alInsert, alLookup, haq]
    · by_cases haq : a = q
      · subst haq
        simp [alInsert, alLookup, hak, Ne.symm hak]
      · simp [alInsert, alLookup, hak, haq, ih]

theorem alLookup_alUpdate {α : Type} (k q : String) (f : α → α) (l : List (String × α)) :
    alLookup q (alUpdate k f l) = if k = q then (alLookup k l).map f else alLookup q l := by
  induction l with
  | nil => simp [alUpdate, alLookup]
  | cons p rest ih =>
    obtain ⟨a, b⟩ := p
    by_cases hak : a = k
    · subst hak
      by_cases haq : a = q <;> simp [alUpdate, alLookup, haq]
    · by_cases haq : a = q
      · subst haq
        simp [alUpdate, alLookup, hak, Ne.symm hak]
      · simp [alUpdate, alLookup, hak, haq, ih]

theorem alInsert_alInsert_same {α : Type} (k : String) (v w : α) (l : List (String × α)) :
    alInsert k v (alInsert k w l) = alInsert k v l := by
  induction l with
  | nil => simp [alInsert]
  | cons p rest ih =>
    obtain ⟨a, b⟩ := p
    by_cases hak : a = k <;> simp [alInsert, hak, ih]

theorem countKey_of_not_mem {α : Type} (k : String) (l : List (String × α))
    (h : k ∉ l.map Prod.fst) : countKey k l = 0 := by
  induction l with
  | nil => rfl
  | cons p rest ih =>
    obtain ⟨a, b⟩ := p
    simp only [List.map_cons, List.mem_cons, not_or] at h
    have h1 : ¬ ((a == k) = true) := by
      simp only [beq_iff_eq]
      exact fun hh => h.1 hh.symm
    simp only [countKey, List.filter_cons, h1, if_false, if_neg h1]
    exact ih h.2

theorem countKey_alInsert {α : Type} (k : String) (v : α) (l : List (String × α))
    (h : (l.map Prod.fst).Nodup) : countKey k (alInsert k v l) = 1 := by
  induction l with
  | nil => simp [alInsert, countKey, List.filter]
  | cons p rest ih =>
    obtain ⟨a, b⟩ := p
    simp only [List.map_cons, List.nodup_cons] at h
    by_cases hak : a = k
    · subst hak
      have hz : countKey a rest = 0 :=
        countKey_of_not_mem a rest (by simpa using h.1)
      simp only [alInsert, if_pos rfl, countKey, List.filter_cons, beq_self_eq_true,
        if_pos, List.length_cons]
      simp only [countKey] at hz
      omega
    · have ha : ¬ ((a == k) = true) := by simp [beq_iff_eq, hak]
      simp only [alInsert, if_neg hak, countKey, List.filter_cons, if_neg ha]
      exact ih h.2

/-! ### Schema accessor lemmas -/

@[simp] theorem JSON.type_withNullable (x : Bool) (j : JSON) :
    (j.withNullable x).type = j.type := by cases j; rfl

@[simp] theorem JSON.nullable_withNullable (x : Bool) (j : JSON) :
    (j.withNullable x).nullable = x := by cases j; rfl

@[simp] theorem JSON.required_withNullable (x : Bool) (j : JSON) :
    (j.withNullable x).required = j.required := by cases j; rfl

@[simp] theorem JSON.enum_withNullable (x : Bool) (j : JSON) :
    (j.withNullable x).enum = j.enum := by cases j; rfl

@[simp] theorem JSON.withNullable_withNullable (x y : Bool) (j : JSON) :
    (j.withNullable x).withNullable y = j.withNullable y := by cases j; rfl

@[simp] theorem JSON.required_withRequired (v) (j : JSON) :
    (j.withRequired v).required = v := by cases j; rfl

@[simp] theorem JSON.required_pushRequired (n : String) (j : JSON) :
    (j.pushRequired n).required = some (j.required.getD [] ++ [n]) := by cases j; rfl

@[simp] theorem JSON.required_setProperties (v) (j : JSON) :
    (j.setProperties v).required = j.required := by cases j; rfl

@[simp] theorem JSON.type_setProperties (v) (j : JSON) :
    (j.setProperties v).type = j.type := by cases j; rfl

@[simp] theorem JSON.type_setItems (v) (j : JSON) :
    (j.setItems v).type = j.type := by cases j; rfl

@[simp] theorem JSON.type_setAdditionalProperties (v) (j : JSON) :
    (j.setAdditionalProperties v).type = j.type := by cases j; rfl

/-! ### Reduction lemmas for the reflection engine -/

theorem From_ptr (e : GoType) : From (.ptr e) = (typeToSchema e).withNullable true := by
  simp [From]

theorem From_not_ptr (t : GoType) (h : t.isPtr = false) :
    From t = (typeToSchema t).withNullable false := by
  cases t <;> simp_all [From, GoType.isPtr]

theorem typeToSchema_ptr (e : GoType) :
    typeToSchema (.ptr e) = typeKindSwitch e (JSON.empty.withNullable true) := by
  simp [typeToSchema]

theorem typeToSchema_not_ptr (t : GoType) (h : t.isPtr = false) :
    typeToSchema t = typeKindSwitch t JSON.empty := by
  cases t <;> simp_all [typeToSchema, GoType.isPtr]

theorem typeKindSwitch_ptr (e : GoType) (s : JSON) :
    typeKindSwitch (.ptr e) s = s := by
  simp [typeKindSwitch]

/-- structAdd commutes with setting Nullable. -/
theorem structAdd_withNullable (f : GoField) (s : JSON) (x : Bool) :
    structAdd f (s.withNullable x) = (structAdd f s).withNullable x := by
  cases s
  simp [structAdd, JSON.setProperties, JSON.withNullable, JSON.modBase, JSON.properties]

/-- pushRequired commutes with setting Nullable. -/
theorem pushRequired_withNullable (n : String) (s : JSON) (x : Bool) :
    (s.withNullable x).pushRequired n = (s.pushRequired n).withNullable x := by
  cases s; rfl

/-- structStep commutes with setting Nullable. -/
theorem structStep_withNullable (f : GoField) (s : JSON) (x : Bool) :
    structStep f (s.withNullable x) = (structStep f s).withNullable x := by
  simp only [structStep]
  split_ifs with h1 h2 h3
  · rfl
  · rfl
  · rw [pushRequired_withNullable]
    exact structAdd_withNullable f _ x
  · exact structAdd_withNullable f s x

/-- The struct field loop commutes with setting Nullable. -/
theorem structLoop_withNullable (fields : List GoField) (s : JSON) (x : Bool) :
    structLoop fields (s.withNullable x) = (structLoop fields s).withNullable x := by
  induction fields generalizing s with
  | nil => simp [structLoop]
  | cons f rest ih =>
    simp only [structLoop]
    rw [structStep_withNullable]
    exact ih (structStep f s)

/-- The kind switch commutes with setting Nullable (it never reads or
    writes Nullable). -/
theorem typeKindSwitch_withNullable (t : GoType) (s : JSON) (x : Bool) :
    typeKindSwitch t (s.withNullable x) = (typeKindSwitch t s).withNullable x := by
  cases t with
  | ptr e => simp [typeKindSwitch]
  | structT p n fields =>
    simp only [typeKindSwitch]
    have hpre : (((s.withNullable x).modBase (fun b => { b with type := "object" })).setProperties
        (some [])).withRequired (some []) =
        ((((s.modBase (fun b => { b with type := "object" })).setProperties
          (some [])).withRequired (some [])).withNullable x) := by
      cases s; rfl
    rw [hpre, structLoop_withNullable]
    set s1 := structLoop fields
      (((s.modBase (fun b => { b with type := "object" })).setProperties
        (some [])).withRequired (some [])) with hs1
    simp only [JSON.required_withNullable]
    by_cases hz : (s1.required.getD []).length = 0
    · simp only [hz, if_pos rfl, if_true]
      cases s1; rfl
    · simp only [if_neg hz]
  | mapT k v => simp only [typeKindSwitch]; cases s; rfl
  | sliceT e => simp only [typeKindSwitch]; cases s; rfl
  | arrayT e => simp only [typeKindSwitch]; cases s; rfl
  | stringT => simp only [typeKindSwitch]; cases s; rfl
  | intT => simp only [typeKindSwitch]; cases s; rfl
  | int8T => simp only [typeKindSwitch]; cases s; rfl
  | int16T => simp only [typeKindSwitch]; cases s; rfl
  | int32T => simp only [typeKindSwitch]; cases s; rfl
  | int64T => simp only [typeKindSwitch]; cases s; rfl
  | uintT => simp only [typeKindSwitch]; cases s; rfl
  | uint8T => simp only [typeKindSwitch]; cases s; rfl
  | uint16T => simp only [typeKindSwitch]; cases s; rfl
  | uint32T => simp only [typeKindSwitch]; cases s; rfl
  | uint64T => simp only [typeKindSwitch]; cases s; rfl
  | float32T => simp only [typeKindSwitch]; cases s; rfl
  | float64T => simp only [typeKindSwitch]; cases s; rfl
  | boolT => simp only [typeKindSwitch]; cases s; rfl
  | chanT => simp only [typeKindSwitch]
  | funcT => simp only [typeKindSwitch]
  | interfaceT => simp only [typeKindSwitch]
  | complex64T => simp only [typeKindSwitch]
  | complex128T => simp only [typeKindSwitch]
  | uintptrT => simp only [typeKindSwitch]

/-! ### Required-name characterization of the struct loop -/

/-- The contribution of one struct field to Required: its external name
    when the field is exported, not named "-", and its json tag does not
    contain "omitempty" as a substring. -/
def reqName? (f : GoField) : Option String :=
  if f.exported then
    if (goSplit ',' (tagGet f.tags "json")).headD "" = "-" then none
    else if strContains (tagGet f.tags "json") "omitempty" then none
    else some (structFieldName f)
  else none

/-- All required field names of a struct, in declaration order. -/
def requiredNames (fields : List GoField) : List String :=
  fields.filterMap reqName?

theorem structStep_required (f : GoField) (s : JSON) :
    (structStep f s).required =
      match reqName? f with
      | some n => some (s.required.getD [] ++ [n])
      | none => s.required := by
  by_cases hE : f.exported
  · by_cases hD : (goSplit ',' (tagGet f.tags "json")).head?.getD "" = "-"
    · simp [structStep, reqName?, hE, hD]
    · by_cases hO : strContains (tagGet f.tags "json") "omitempty"
      · simp [structStep, reqName?, hE, hD, hO, structAdd]
      · simp [structStep, reqName?, hE, hD, hO, structAdd]
  · simp [structStep, reqName?, hE]

theorem structLoop_required (fields : List GoField) :
    ∀ (s : JSON) (r : List String), s.required = some r →
      (structLoop fields s).required = some (r ++ requiredNames fields) := by
  induction fields with
  | nil =>
    intro s r h
    simp [structLoop, requiredNames, h]
  | cons f rest ih =>
    intro s r h
    simp only [structLoop]
    have hs := structStep_required f s
    cases hq : reqName? f with
    | none =>
      rw [hq] at hs
      rw [ih (structStep f s) r (hs.trans h)]
      simp [requiredNames, List.filterMap_cons, hq]
    | some n =>
      rw [hq, h] at hs
      simp only [Option.getD_some] at hs
      rw [ih (structStep f s) (r ++ [n]) hs]
      simp [requiredNames, List.filterMap_cons, hq]

/-- The Required list produced for a struct type: the required names when
    any exist, Go nil otherwise. -/
theorem typeToSchema_structT_required (p n : String) (fields : List GoField) :
    (typeToSchema (.structT p n fields)).required =
      (if requiredNames fields = [] then none else some (requiredNames fields)) := by
  simp only [typeToSchema, typeKindSwitch]
  have h0 : ((((JSON.empty.modBase (fun b => { b with type := "object" })).setProperties
      (some [])).withRequired (some []))).required = some [] := by rfl
  have hl := structLoop_required fields _ [] h0
  rw [List.nil_append] at hl
  by_cases hz : requiredNames fields = []
  · simp [hl, hz]
  · have hlen : ¬ ((structLoop fields
        (((JSON.empty.modBase (fun b => { b with type := "object" })).setProperties
          (some [])).withRequired (some []))).required.getD []).length = 0 := by
      rw [hl]
      simpa [List.length_eq_zero] using hz
    simp [hlen, hl, hz]

/-! ### The struct loop never touches the numeric bounds -/

theorem structStep_bounds (f : GoField) (s : JSON) :
    (structStep f s).minimum = s.minimum ∧ (structStep f s).maximum = s.maximum ∧
    (structStep f s).exclusiveMinimum = s.exclusiveMinimum ∧
    (structStep f s).exclusiveMaximum = s.exclusiveMaximum := by
  simp only [structStep]
  split_ifs with h1 h2 h3 <;>
    simp [structAdd, JSON.minimum, JSON.maximum, JSON.exclusiveMinimum, JSON.exclusiveMaximum,
      JSON.pushRequired, JSON.withRequired]

theorem structLoop_bounds (fields : List GoField) :
    ∀ s : JSON,
      (structLoop fields s).minimum = s.minimum ∧ (structLoop fields s).maximum = s.maximum ∧
      (structLoop fields s).exclusiveMinimum = s.exclusiveMinimum ∧
      (structLoop fields s).exclusiveMaximum = s.exclusiveMaximum := by
  induction fields with
  | nil => intro s; simp [structLoop]
  | cons f rest ih =>
    intro s
    simp only [structLoop]
    obtain ⟨a, b, c, d⟩ := ih (structStep f s)
    obtain ⟨a', b', c', d'⟩ := structStep_bounds f s
    exact ⟨a.trans a', b.trans b', c.trans c', d.trans d'⟩

/-- Reflection alone never sets a numeric bound, whatever the type. -/
theorem typeToSchema_bounds (t : GoType) :
    (typeToSchema t).minimum = none ∧ (typeToSchema t).maximum = none ∧
    (typeToSchema t).exclusiveMinimum = none ∧ (typeToSchema t).exclusiveMaximum = none := by
  have base : ∀ (u : GoType) (s : JSON),
      (typeKindSwitch u s).minimum = s.minimum ∧ (typeKindSwitch u s).maximum = s.maximum ∧
      (typeKindSwitch u s).exclusiveMinimum = s.exclusiveMinimum ∧
      (typeKindSwitch u s).exclusiveMaximum = s.exclusiveMaximum := by
    intro u s
    cases u <;>
      simp [typeKindSwitch, JSON.minimum, JSON.maximum, JSON.exclusiveMinimum,
        JSON.exclusiveMaximum]
    case structT p n fields =>
      obtain ⟨a, b, c, d⟩ := structLoop_bounds fields
        (((s.modBase (fun b => { b with type := "object" })).setProperties
          (some [])).withRequired (some []))
      constructor
      · split_ifs <;>
          simp_all [JSON.minimum, JSON.withRequired]
      constructor
      · split_ifs <;>
          simp_all [JSON.maximum, JSON.withRequired]
      constructor
      · split_ifs <;>
          simp_all [JSON.exclusiveMinimum, JSON.withRequired]
      · split_ifs <;>
          simp_all [JSON.exclusiveMaximum, JSON.withRequired]
  cases t with
  | ptr e =>
    rw [typeToSchema_ptr]
    simpa [JSON.minimum, JSON.maximum, JSON.exclusiveMinimum, JSON.exclusiveMaximum,
      JSON.withNullable, JSON.empty] using base e (JSON.empty.withNullable true)
  | _ =>
    simp only [typeToSchema]
    simpa [JSON.minimum, JSON.maximum, JSON.exclusiveMinimum, JSON.exclusiveMaximum,
      JSON.empty] using base _ JSON.empty

/-! ### Strut-layer lemmas -/

theorem assignResponse_paths (t : GoType) (s : Definition) (op : Operation) :
    ((assignResponse t s op).1).paths = s.paths := rfl

theorem assignRequest_paths (t : GoType) (s : Definition) (op : Operation) :
    ((assignRequest t s op).1).paths = s.paths := rfl

theorem assignResponse_schemas (t : GoType) (s : Definition) (op : Operation) :
    ((assignResponse t s op).1).components.schemas =
      alInsert (schemaUri t) (From t) s.components.schemas := rfl

theorem assignRequest_schemas (t : GoType) (s : Definition) (op : Operation) :
    ((assignRequest t s op).1).components.schemas =
      alInsert (schemaUri t) (From t) s.components.schemas := rfl

theorem assignResponse_op_indep (t : GoType) (s s' : Definition) (op : Operation) :
    (assignResponse t s op).2 = (assignResponse t s' op).2 := rfl

theorem alLookup_getPathEnsure_self (s : Definition) (path : String) :
    alLookup path (getPathEnsure s path).paths = some ((alLookup path s.paths).getD {}) := by
  unfold getPathEnsure
  cases h : alLookup path s.paths with
  | none => simp [h, alLookup_alInsert]
  | some pi => simp [h]

theorem alLookup_getPathEnsure_ne (s : Definition) (path q : String) (h : q ≠ path) :
    alLookup q (getPathEnsure s path).paths = alLookup q s.paths := by
  unfold getPathEnsure
  cases hh : alLookup path s.paths with
  | none =>
    simp only [hh, Option.isNone_none, if_pos rfl, if_true, alLookup_alInsert]
    rw [if_neg (fun hc => h hc.symm)]
  | some pi => simp [hh]

theorem Get_paths_lookup (t : GoType) (s : Definition) (path : String)
    (ops : List OpConfig) (q : String) :
    alLookup q (Get t s path ops).paths =
      if path = q then
        some { (alLookup path s.paths).getD {} with
               get := some ((assignResponse t (getPathEnsure s path) (assignOperation ops)).2) }
      else alLookup q s.paths := by
  have hpaths : (Get t s path ops).paths =
      alUpdate path
        (fun pi => { pi with
          get := some ((assignResponse t (getPathEnsure s path) (assignOperation ops)).2) })
        (getPathEnsure s path).paths := rfl
  rw [hpaths, alLookup_alUpdate]
  by_cases hq : path = q
  · subst hq
    simp [alLookup_getPathEnsure_self]
  · simp only [if_neg hq]
    exact alLookup_getPathEnsure_ne s path q (fun hc => hq hc.symm)

theorem Delete_paths_lookup (t : GoType) (s : Definition) (path : String)
    (ops : List OpConfig) (q : String) :
    alLookup q (Delete t s path ops).paths =
      if path = q then
        some { (alLookup path s.paths).getD {} with
               delete := some ((assignResponse t (getPathEnsure s path) (assignOperation ops)).2) }
      else alLookup q s.paths := by
  have hpaths : (Delete t s path ops).paths =
      alUpdate path
        (fun pi => { pi with
          delete := some ((assignResponse t (getPathEnsure s path) (assignOperation ops)).2) })
        (getPathEnsure s path).paths := rfl
  rw [hpaths, alLookup_alUpdate]
  by_cases hq : path = q
  · subst hq
    simp [alLookup_getPathEnsure_self]
  · simp only [if_neg hq]
    exact alLookup_getPathEnsure_ne s path q (fun hc => hq hc.symm)

theorem Post_paths_lookup (treq tres : GoType) (s : Definition) (path : String)
    (ops : List OpConfig) (q : String) :
    alLookup q (Post treq tres s path ops).paths =
      if path = q then
        some { (alLookup path s.paths).getD {} with
               post := some ((assignResponse tres
                 (assignRequest treq (getPathEnsure s path) (assignOperation ops)).1
                 (assignRequest treq (getPathEnsure s path) (assignOperation ops)).2).2) }
      else alLookup q s.paths := by
  have hpaths : (Post treq tres s path ops).paths =
      alUpdate path
        (fun pi => { pi with
          post := some ((assignResponse tres
            (assignRequest treq (getPathEnsure s path) (assignOperation ops)).1
            (assignRequest treq (getPathEnsure s path) (assignOperation ops)).2).2) })
        (getPathEnsure s path).paths := rfl
  rw [hpaths, alLookup_alUpdate]
  by_cases hq : path = q
  · subst hq
    simp [alLookup_getPathEnsure_self]
  · simp only [if_neg hq]
    exact alLookup_getPathEnsure_ne s path q (fun hc => hq hc.symm)

/-- Defaulting an absent Content map then inserting equals inserting
    into the (possibly nil) map directly. -/
theorem respSetContent_respDefault (t : GoType) (r : Response) :
    respSetContent t (respDefault r) = respSetContent t r := by
  cases hc : r.content <;> simp [respDefault, respSetContent, hc]

/-- assignResponse reuses the "200" response entry: the entry after
    injection is the previous entry (or a fresh zero one) with only its
    Content["application/json"] slot set — its Description survives. -/
theorem assignResponse_resp200 (t : GoType) (s : Definition) (op : Operation) :
    alLookup "200" (((assignResponse t s op).2).responses.getD []) =
      some (respSetContent t ((alLookup "200" (op.responses.getD [])).getD {})) := by
  have hrs0 : ((if op.responses.isNone then { op with responses := some [] } else op).responses.getD [])
      = op.responses.getD [] := by
    cases h : op.responses <;> simp [h]
  have hresp : ((assignResponse t s op).2).responses =
      some (alUpdate "200" (respSetContent t)
        (alUpdate "200" respDefault
          (if (alLookup "200" (op.responses.getD [])).isNone
           then alInsert "200" ({} : Response) (op.responses.getD [])
           else (op.responses.getD [])))) := by
    simp only [assignResponse]
    rw [hrs0]
  rw [hresp]
  simp only [Option.getD_some]
  rw [alLookup_alUpdate, alLookup_alUpdate]
  cases h200 : alLookup "200" (op.responses.getD []) with
  | none =>
    simp only [h200, Option.isNone_none, if_pos rfl, if_true, alLookup_alInsert]
    simp [respSetContent_respDefault]
  | some r0 =>
    simp only [h200, Option.isNone_some, Bool.false_eq_true, if_false]
    simp [h200, respSetContent_respDefault]

/-- with.ResponseDescription finds or creates the status entry and sets
    only its Description — any Content already there survives. -/
theorem respDesc_lookup (code : Int) (d : String) (op : Operation) :
    alLookup (toString code) ((With.ResponseDescription code d op).responses.getD []) =
      some (respSetDesc d ((alLookup (toString code) (op.responses.getD [])).getD {})) := by
  have hresp : (With.ResponseDescription code d op).responses =
      some (alUpdate (toString code) (respSetDesc d)
        (if (alLookup (toString code) (op.responses.getD [])).isNone
         then alInsert (toString code) ({} : Response) (op.responses.getD [])
         else (op.responses.getD []))) := rfl
  rw [hresp]
  simp only [Option.getD_some]
  rw [alLookup_alUpdate]
  cases h : alLookup (toString code) (op.responses.getD []) with
  | none =>
    simp only [h, Option.isNone_none, if_pos rfl, if_true, alLookup_alInsert]
    simp [h]
  | some r0 =>
    simp only [h, Option.isNone_some, Bool.false_eq_true, if_false]
    simp [h]

theorem assignOperation_append_single (ops : List OpConfig) (o : OpConfig) :
    assignOperation (ops ++ [o]) = o (assignOperation ops) := by
  simp [assignOperation, List.foldl_append]

/-! ### Claim theorems -/

/-- C9: every Param constructed by with.PathParam has location "path" and
    required == true, for every name, description and type argument and
    whatever the operation already contains — the option appends exactly
    one Param whose In is "path" and whose Required is true. -/
theorem C9_path_param_always_required (name description : String) (t : GoType) (op : Operation) :
    (With.PathParam name description t op).parameters =
      op.parameters ++
        [{ name := name, inLoc := "path", description := description,
           required := true, deprecated := false, allowEmptyValue := false,
           schema := some (From t) }] ∧
    (({ name := name, inLoc := "path", description := description,
        required := true, deprecated := false, allowEmptyValue := false,
        schema := some (From t) } : Param)).required = true ∧
    (({ name := name, inLoc := "path", description := description,
        required := true, deprecated := false, allowEmptyValue := false,
        schema := some (From t) } : Param)).inLoc = "path" := by
  refine ⟨rfl, rfl, rfl⟩

/-- C10: registering a verb on a path rewrites only that verb's slot of
    that path's PathItem: Get stores the finalized operation in the Get
    slot of the existing PathItem (or of a fresh zero one when the path
    was absent), and every other path — and, through the record update,
    every other field of the PathItem — is exactly what it was; likewise
    Post for the Post slot. -/
theorem C10_registration_frame (t treq tres : GoType) (s : Definition) (path : String)
    (ops : List OpConfig) (q : String) :
    (alLookup q (Get t s path ops).paths =
      if path = q then
        some { (alLookup path s.paths).getD {} with
               get := some ((assignResponse t (getPathEnsure s path) (assignOperation ops)).2) }
      else alLookup q s.paths) ∧
    (alLookup q (Post treq tres s path ops).paths =
      if path = q then
        some { (alLookup path s.paths).getD {} with
               post := some ((assignResponse tres
                 (assignRequest treq (getPathEnsure s path) (assignOperation ops)).1
                 (assignRequest treq (getPathEnsure s path) (assignOperation ops)).2).2) }
      else alLookup q s.paths) := by
  exact ⟨Get_paths_lookup t s path ops q, Post_paths_lookup treq tres s path ops q⟩

/-- C1: for a Get (or Delete) registration whose options end with a
    description-only option for status 200, the finalized operation's
    responses["200"] entry keeps that description and carries the
    injected content["application/json"] schema reference; and when the
    description-only option runs after the injection instead, the two
    still coexist — the injection reuses the entry the option created and
    the option only sets the Description field of the entry the injection
    populated. -/
theorem C1_merge_not_replace (t : GoType) (s : Definition) (path : String)
    (pre : List OpConfig) (desc : String) :
    ((alLookup path (Get t s path (pre ++ [With.ResponseDescription 200 desc])).paths).getD {}).get
      = some ((assignResponse t (getPathEnsure s path)
          (assignOperation (pre ++ [With.ResponseDescription 200 desc]))).2) ∧
    ((alLookup path (Delete t s path (pre ++ [With.ResponseDescription 200 desc])).paths).getD {}).delete
      = some ((assignResponse t (getPathEnsure s path)
          (assignOperation (pre ++ [With.ResponseDescription 200 desc]))).2) ∧
    alLookup "200"
        (((assignResponse t (getPathEnsure s path)
          (assignOperation (pre ++ [With.ResponseDescription 200 desc]))).2).responses.getD [])
      = some (respSetContent t (respSetDesc desc
          ((alLookup "200" ((assignOperation pre).responses.getD [])).getD {}))) ∧
    (respSetContent t (respSetDesc desc
        ((alLookup "200" ((assignOperation pre).responses.getD [])).getD {}))).description = desc ∧
    alLookup "application/json"
        ((respSetContent t (respSetDesc desc
          ((alLookup "200" ((assignOperation pre).responses.getD [])).getD {}))).content.getD [])
      = some (refMedia t) ∧
    ∀ op : Operation,
      alLookup "200"
          ((With.ResponseDescription 200 desc ((assignResponse t s op).2)).responses.getD [])
        = some (respSetDesc desc (respSetContent t
            ((alLookup "200" (op.responses.getD [])).getD {}))) ∧
      (respSetDesc desc (respSetContent t
          ((alLookup "200" (op.responses.getD [])).getD {}))).description = desc ∧
      alLookup "application/json"
          ((respSetDesc desc (respSetContent t
            ((alLookup "200" (op.responses.getD [])).getD {}))).content.getD [])
        = some (refMedia t) := by
  have hkey : (toString (200 : Int)) = "200" := by decide
  refine ⟨?_, ?_, ?_, ?_, ?_, ?_⟩
  · rw [Get_paths_lookup t s path _ path]
    simp
  · rw [Delete_paths_lookup t s path _ path]
    simp
  · rw [assignResponse_resp200]
    rw [assignOperation_append_single]
    have h := respDesc_lookup 200 desc (assignOperation pre)
    rw [hkey] at h
    rw [h]
    simp
  · simp [respSetContent, respSetDesc]
  · simp [respSetContent, alLookup_alInsert]
  · intro op
    have h2 := respDesc_lookup 200 desc ((assignResponse t s op).2)
    rw [hkey] at h2
    rw [assignResponse_resp200] at h2
    simp only [Option.getD_some] at h2
    refine ⟨h2, rfl, ?_⟩
    simp [respSetContent, respSetDesc, alLookup_alInsert]

/-- C2: the component name is "<package>_<TypeName>" (package-path base,
    underscore, type name), the reference string is
    "#/components/schemas/<name>", registration (as request or as
    response) stores the reflected schema under that single key by
    overwriting insert, registering the same type twice (in either role)
    leaves the map exactly as one registration — one entry under the key
    when the initial map has no duplicate keys, all other keys
    untouched — and the reference written into the operation is the same
    pure function of the type both times. -/
theorem C2_register_schema_idempotent (t : GoType) (s : Definition) (op1 op2 : Operation)
    (h : (s.components.schemas.map Prod.fst).Nodup) :
    schemaUri t = filepathBase (t).pkgPathOf ++ "_" ++ (t).tnameOf ∧
    schemaRef t = "#/components/schemas/" ++ schemaUri t ∧
    (assignResponse t s op1).1.components.schemas
      = alInsert (schemaUri t) (From t) (s).components.schemas ∧
    (assignRequest t s op1).1.components.schemas
      = alInsert (schemaUri t) (From t) (s).components.schemas ∧
    (assignResponse t ((assignResponse t s op1).1) op2).1.components.schemas
      = (assignResponse t s op1).1.components.schemas ∧
    (assignRequest t ((assignResponse t s op1).1) op2).1.components.schemas
      = (assignResponse t s op1).1.components.schemas ∧
    countKey (schemaUri t)
        ((assignResponse t ((assignResponse t s op1).1) op2).1.components.schemas) = 1 ∧
    (∀ k, k ≠ schemaUri t →
      alLookup k ((assignResponse t ((assignResponse t s op1).1) op2).1.components.schemas)
        = alLookup k (s).components.schemas) ∧
    alLookup "application/json"
        ((((alLookup "200" (((assignResponse t s op1).2).responses.getD [])).getD {}).content).getD [])
      = some (refMedia t) := by
  refine ⟨rfl, rfl, rfl, rfl, ?_, ?_, ?_, ?_, ?_⟩
  · exact alInsert_alInsert_same (schemaUri t) (From t) (From t) s.components.schemas
  · exact alInsert_alInsert_same (schemaUri t) (From t) (From t) s.components.schemas
  · show countKey (schemaUri t)
        (alInsert (schemaUri t) (From t) (alInsert (schemaUri t) (From t) s.components.schemas)) = 1
    rw [alInsert_alInsert_same]
    exact countKey_alInsert (schemaUri t) (From t) s.components.schemas h
  · intro k hk
    show alLookup k
        (alInsert (schemaUri t) (From t) (alInsert (schemaUri t) (From t) s.components.schemas))
      = alLookup k s.components.schemas
    rw [alLookup_alInsert, alLookup_alInsert]
    rw [if_neg (fun hc => hk hc.symm), if_neg (fun hc => hk hc.symm)]
  · rw [assignResponse_resp200]
    simp [respSetContent, alLookup_alInsert]

/-- Witness for C2 at a concrete struct type registered into the fresh
    Definition produced by New. -/
theorem C2_register_schema_idempotent_witness :
    ((New.components.schemas.map Prod.fst).Nodup) ∧
    (schemaUri (GoType.structT "example.com/api" "Pet" []) = filepathBase ((GoType.structT "example.com/api" "Pet" [])).pkgPathOf ++ "_" ++ ((GoType.structT "example.com/api" "Pet" [])).tnameOf ∧
    schemaRef (GoType.structT "example.com/api" "Pet" []) = "#/components/schemas/" ++ schemaUri (GoType.structT "example.com/api" "Pet" []) ∧
    (assignResponse (GoType.structT "example.com/api" "Pet" []) New ({} : Operation)).1.components.schemas
      = alInsert (schemaUri (GoType.structT "example.com/api" "Pet" [])) (From (GoType.structT "example.com/api" "Pet" [])) (New).components.schemas ∧
    (assignRequest (GoType.structT "example.com/api" "Pet" []) New ({} : Operation)).1.components.schemas
      = alInsert (schemaUri (GoType.structT "example.com/api" "Pet" [])) (From (GoType.structT "example.com/api" "Pet" [])) (New).components.schemas ∧
    (assignResponse (GoType.structT "example.com/api" "Pet" []) ((assignResponse (GoType.structT "example.com/api" "Pet" []) New ({} : Operation)).1) ({} : Operation)).1.components.schemas
      = (assignResponse (GoType.structT "example.com/api" "Pet" []) New ({} : Operation)).1.components.schemas ∧
    (assignRequest (GoType.structT "example.com/api" "Pet" []) ((assignResponse (GoType.structT "example.com/api" "Pet" []) New ({} : Operation)).1) ({} : Operation)).1.components.schemas
      = (assignResponse (GoType.structT "example.com/api" "Pet" []) New ({} : Operation)).1.components.schemas ∧
    countKey (schemaUri (GoType.structT "example.com/api" "Pet" []))
        ((assignResponse (GoType.structT "example.com/api" "Pet" []) ((assignResponse (GoType.structT "example.com/api" "Pet" []) New ({} : Operation)).1) ({} : Operation)).1.components.schemas) = 1 ∧
    (∀ k, k ≠ schemaUri (GoType.structT "example.com/api" "Pet" []) →
      alLookup k ((assignResponse (GoType.structT "example.com/api" "Pet" []) ((assignResponse (GoType.structT "example.com/api" "Pet" []) New ({} : Operation)).1) ({} : Operation)).1.components.schemas)
        = alLookup k (New).components.schemas) ∧
    alLookup "application/json"
        ((((alLookup "200" (((assignResponse (GoType.structT "example.com/api" "Pet" []) New ({} : Operation)).2).responses.getD [])).getD {}).content).getD [])
      = some (refMedia (GoType.structT "example.com/api" "Pet" []))) := by
  refine ⟨by decide, ?_⟩
  exact C2_register_schema_idempotent (GoType.structT "example.com/api" "Pet" []) New {} {}
    (by decide)

@[simp] theorem JSON.type_empty : JSON.empty.type = "" := rfl

@[simp] theorem JSON.nullable_empty : JSON.empty.nullable = false := rfl

/-- The comma-separated option list after the name of an encoding/json
    struct tag — the claim's notion of a field "carrying the omitempty
    option" (stated from the spec's words; the source itself tests
    substring containment over the whole tag string instead). -/
def jsonTagOptions (tag : String) : List String :=
  (goSplit ',' tag).drop 1

/-- C3 counterexample: a field whose json tag is exactly "omitempty" — a
    field NAME, not an option; its option list is empty, so the claim
    requires it in Required under its external name "omitempty", but the
    substring test makes the code mark it optional and emit Required nil. -/
theorem C3_counterexample :
    (From (.structT "example.com/api" "Legacy"
        [.mk "Old" true [("json", "omitempty")] .stringT])).required = none ∧
    jsonTagOptions "omitempty" = [] ∧
    structFieldName (.mk "Old" true [("json", "omitempty")] .stringT) = "omitempty" := by
  refine ⟨?_, by decide, by decide⟩
  simp only [From, typeToSchema, typeKindSwitch, structLoop, structStep, structAdd,
    fieldToSchema]
  decide

/-- C3 amended: a visible (exported, not json:"-") field is included in
    Required, under its external name, exactly when its whole json tag
    string does not contain "omitempty" as a substring (not: does not
    carry the omitempty option); in declaration order, and Required is
    Go-nil instead of empty when no field qualifies.  In particular, for
    a struct none of whose visible fields' tags contain that substring,
    Required is the full list of external names. -/
theorem C3_required_names (p n : String) (fields : List GoField) :
    (From (.structT p n fields)).required =
      (if requiredNames fields = [] then none else some (requiredNames fields)) := by
  rw [From_not_ptr (.structT p n fields) rfl]
  rw [JSON.required_withNullable]
  exact typeToSchema_structT_required p n fields

/-- C4 counterexample: the nil interface value does not degrade to an
    empty schema node — reflect.TypeOf(nil) is a nil reflect.Type and the
    Kind() call on it faults, so From returns no schema at all. -/
theorem C4_counterexample : (FromNilable none).isSome = false := rfl

/-- C4 amended: for every non-nil argument, From totally returns a
    schema; the kinds without a case in the switch (chan, func,
    interface, complex, uintptr) degrade to the empty schema node with no
    type set. -/
theorem C4_total_on_types :
    (∀ t : GoType, (FromNilable (some t)).isSome = true) ∧
    From .chanT = JSON.empty ∧ From .funcT = JSON.empty ∧
    From .interfaceT = JSON.empty ∧ From .complex64T = JSON.empty ∧
    From .complex128T = JSON.empty ∧ From .uintptrT = JSON.empty := by
  refine ⟨fun t => rfl, ?_, ?_, ?_, ?_, ?_, ?_⟩ <;>
    (simp only [From, typeToSchema, typeKindSwitch]; rfl)

/-- C6 counterexample: a three-level pointer chain over int is NOT
    unwrapped to the concrete kind — the schema kind comes out unset,
    while reflecting int directly gives "integer". -/
theorem C6_counterexample :
    (From (.ptr (.ptr (.ptr .intT)))).type = "" ∧
    (From .intT).type = "integer" ∧
    ("" : String) ≠ "integer" := by
  refine ⟨?_, ?_, by decide⟩
  · simp only [From, typeToSchema, typeKindSwitch]
    decide
  · simp only [From, typeToSchema, typeKindSwitch]
    decide

/-- C6 amended: pointer unwrapping reaches the concrete type for chains
    of depth one or two only (one unwrap in From, one in typeToSchema):
    for non-pointer X, reflecting *X yields X's kind with nullable true
    and **X reflects identically to *X; any chain of depth three or more
    yields a schema with no kind set (nullable still true). -/
theorem C6_two_level_unwrap (X : GoType) (h : X.isPtr = false) :
    ((From (.ptr X)).type = (From X).type ∧ (From (.ptr X)).nullable = true) ∧
    From (.ptr (.ptr X)) = From (.ptr X) ∧
    ∀ Y : GoType, (From (.ptr (.ptr (.ptr Y)))).type = "" ∧
      (From (.ptr (.ptr (.ptr Y)))).nullable = true := by
  refine ⟨⟨?_, ?_⟩, ?_, ?_⟩
  · rw [From_ptr, From_not_ptr X h]
    simp
  · rw [From_ptr]
    simp
  · rw [From_ptr, From_ptr, typeToSchema_ptr, typeToSchema_not_ptr X h,
      typeKindSwitch_withNullable]
    simp
  · intro Y
    constructor
    · rw [From_ptr, typeToSchema_ptr, typeKindSwitch_ptr]
      simp
    · rw [From_ptr]
      simp

/-- Witness for C6 at X = int. -/
theorem C6_two_level_unwrap_witness :
    GoType.intT.isPtr = false ∧
    (((From (.ptr .intT)).type = (From .intT).type ∧ (From (.ptr .intT)).nullable = true) ∧
     From (.ptr (.ptr .intT)) = From (.ptr .intT) ∧
     ∀ Y : GoType, (From (.ptr (.ptr (.ptr Y)))).type = "" ∧
       (From (.ptr (.ptr (.ptr Y)))).nullable = true) :=
  ⟨rfl, C6_two_level_unwrap .intT rfl⟩

/-- C7 counterexample: at X = **int the claimed equality fails — *X is
    ***int, whose schema has no kind set, while reflecting **int (with
    nullable forced true) has kind "integer"; the two schemas differ. -/
theorem C7_counterexample :
    (From (.ptr (.ptr (.ptr .intT)))).type = "" ∧
    ((From (.ptr (.ptr .intT))).withNullable true).type = "integer" ∧
    From (.ptr (.ptr (.ptr .intT))) ≠ (From (.ptr (.ptr .intT))).withNullable true := by
  have h1 : (From (.ptr (.ptr (.ptr .intT)))).type = "" := by
    simp only [From, typeToSchema, typeKindSwitch]
    decide
  have h2 : ((From (.ptr (.ptr .intT))).withNullable true).type = "integer" := by
    simp only [From, typeToSchema, typeKindSwitch]
    decide
  refine ⟨h1, h2, fun hc => ?_⟩
  rw [hc] at h1
  exact absurd (h1.symm.trans h2) (by decide)

/-- C7 amended: reflect(*X) always has nullable true, and for X of
    pointer depth at most one (the claim holds up to double pointers),
    reflect(*X) equals reflect(X) with nullable forced true. -/
theorem C7_nullable_shape :
    (∀ X : GoType, (From (.ptr X)).nullable = true) ∧
    ∀ X : GoType, X.ptrDepth ≤ 1 → From (.ptr X) = (From X).withNullable true := by
  constructor
  · intro X
    rw [From_ptr]
    simp
  · intro X h
    by_cases hp : X.isPtr = false
    · rw [From_ptr, From_not_ptr X hp]
      simp
    · cases X
      · rename_i Y
        have hY : Y.isPtr = false := by
          cases Y <;> first
            | rfl
            | (exfalso; simp only [GoType.ptrDepth] at h; omega)
        rw [From_ptr, From_ptr, typeToSchema_ptr, typeToSchema_not_ptr Y hY,
          typeKindSwitch_withNullable]
        try simp
      all_goals exact absurd rfl hp

/-- Witness for C7 at X = int. -/
theorem C7_nullable_shape_witness :
    GoType.intT.ptrDepth ≤ 1 ∧ From (.ptr .intT) = (From .intT).withNullable true :=
  ⟨by decide, C7_nullable_shape.2 .intT (by decide)⟩

/-! ### C5 and C8: field tag overrides -/

theorem enumToken_string : enumToken .stringT = fun v => EnumVal.str (goTrimSpace v) := by
  funext v
  simp [enumToken]

theorem enumToken_int : enumToken .intT = fun v =>
    (match parseGoInt64 (goTrimSpace v) with
     | some nv => EnumVal.int nv
     | none => EnumVal.nilV) := by
  funext v
  simp [enumToken]

/-- C5 counterexample: on an int field tagged json-enum "1,x,3" the
    unparseable token "x" is not dropped — its pre-allocated slot stays
    the nil interface value, so the enum list is [1, nil, 3], not the
    two-element list the claim requires. -/
theorem C5_counterexample :
    (fieldToSchema (.mk "Status" true [("json", "status"), ("json-enum", "1,x,3")] .intT)).enum
      = [.int 1, .nilV, .int 3] ∧
    ([EnumVal.int 1, EnumVal.nilV, EnumVal.int 3] ≠ [EnumVal.int 1, EnumVal.int 3]) := by
  refine ⟨?_, by decide⟩
  simp only [fieldToSchema, typeToSchema, typeKindSwitch]
  decide

/-- C5 amended: each comma token is trimmed and parsed per the field's
    element kind (string verbatim, signed integer base-10 64-bit) and
    assigned at its position; a token that fails to parse leaves a nil
    (untyped) entry at that position instead of being dropped, so the
    resulting list always has one entry per token, in order; on a string
    field every token parses, e.g. "red,green,blue" yields exactly
    [red, green, blue]. -/
theorem C5_enum_parsing (fn : String) (ex : Bool) (ts : List (String × String)) (e : String)
    (htype : tagGet ts "json-type" = "")
    (henum : tagGet ts "json-enum" = e)
    (hne : e ≠ "") :
    (fieldToSchema (.mk fn ex ts .stringT)).enum
      = (goSplit ',' e).map (fun v => EnumVal.str (goTrimSpace v)) ∧
    (fieldToSchema (.mk fn ex ts .intT)).enum
      = (goSplit ',' e).map (fun v =>
          (match parseGoInt64 (goTrimSpace v) with
           | some nv => EnumVal.int nv
           | none => EnumVal.nilV)) ∧
    (fieldToSchema (.mk fn ex ts .intT)).enum.length = (goSplit ',' e).length := by
  refine ⟨?_, ?_, ?_⟩
  · by_cases hdesc : tagGet ts "json-description" = "" <;>
    cases hml : getIntFromField (GoField.mk fn ex ts .stringT) "json-max-length" <;>
    cases hmnl : getIntFromField (GoField.mk fn ex ts .stringT) "json-min-length" <;>
    by_cases hfmt : tagGet ts "json-format" = "" <;>
    by_cases hpat : tagGet ts "json-pattern" = "" <;>
    simp [fieldToSchema, typeToSchema, typeKindSwitch, htype, henum, hne, hdesc, hml, hmnl,
      hfmt, hpat, parseEnum, enumElemType, enumToken_string, JSON.enum, JSON.modBase,
      JSON.type, JSON.empty, GoField.tags, GoField.ftype]
  · by_cases hdesc : tagGet ts "json-description" = "" <;>
    cases hmax : getFloat64Ptr (tagGet ts "json-maximum") <;>
    cases hmin : getFloat64Ptr (tagGet ts "json-minimum") <;>
    cases hemax : getFloat64Ptr (tagGet ts "json-exclusive-maximum") <;>
    cases hemin : getFloat64Ptr (tagGet ts "json-exclusive-minimum") <;>
    simp [fieldToSchema, typeToSchema, typeKindSwitch, htype, henum, hne, hdesc, hmax, hmin,
      hemax, hemin, parseEnum, enumElemType, enumToken_int, JSON.enum, JSON.modBase,
      JSON.type, JSON.empty, GoField.tags, GoField.ftype]
  · by_cases hdesc : tagGet ts "json-description" = "" <;>
    cases hmax : getFloat64Ptr (tagGet ts "json-maximum") <;>
    cases hmin : getFloat64Ptr (tagGet ts "json-minimum") <;>
    cases hemax : getFloat64Ptr (tagGet ts "json-exclusive-maximum") <;>
    cases hemin : getFloat64Ptr (tagGet ts "json-exclusive-minimum") <;>
    simp [fieldToSchema, typeToSchema, typeKindSwitch, htype, henum, hne, hdesc, hmax, hmin,
      hemax, hemin, parseEnum, enumElemType, JSON.enum, JSON.modBase,
      JSON.type, JSON.empty, GoField.tags, GoField.ftype]

/-- Witness for C5: a string field tagged json-enum "red,green,blue". -/
theorem C5_enum_parsing_witness :
    tagGet [("json", "color"), ("json-enum", "red,green,blue")] "json-type" = "" ∧
    tagGet [("json", "color"), ("json-enum", "red,green,blue")] "json-enum" = "red,green,blue" ∧
    ("red,green,blue" : String) ≠ "" ∧
    (fieldToSchema (.mk "Color" true [("json", "color"), ("json-enum", "red,green,blue")]
        .stringT)).enum
      = (goSplit ',' "red,green,blue").map (fun v => EnumVal.str (goTrimSpace v)) ∧
    (goSplit ',' "red,green,blue").map (fun v => EnumVal.str (goTrimSpace v))
      = [EnumVal.str "red", EnumVal.str "green", EnumVal.str "blue"] := by
  refine ⟨by decide, by decide, by decide, ?_, by decide⟩
  exact (C5_enum_parsing "Color" true [("json", "color"), ("json-enum", "red,green,blue")]
    "red,green,blue" (by decide) (by decide) (by decide)).1

/-- C8: on a field whose reflected kind is number (float64) or integer
    (int) — or whose kind is overridden to "number" by a json-type tag —
    each numeric-bound tag that parses as a 64-bit float sets exactly
    that bound to the parsed value, and an absent or unparseable tag
    value leaves the bound absent (Go nil), with no error anywhere:
    every bound equals getFloat64Ptr of its tag string. -/
theorem C8_numeric_bound_tags (fn : String) (ex : Bool) (ts ts2 : List (String × String))
    (htype : tagGet ts "json-type" = "")
    (hov : tagGet ts2 "json-type" = "number") :
    ((fieldToSchema (.mk fn ex ts .float64T)).minimum
        = getFloat64Ptr (tagGet ts "json-minimum") ∧
     (fieldToSchema (.mk fn ex ts .float64T)).maximum
        = getFloat64Ptr (tagGet ts "json-maximum") ∧
     (fieldToSchema (.mk fn ex ts .float64T)).exclusiveMinimum
        = getFloat64Ptr (tagGet ts "json-exclusive-minimum") ∧
     (fieldToSchema (.mk fn ex ts .float64T)).exclusiveMaximum
        = getFloat64Ptr (tagGet ts "json-exclusive-maximum") ∧
     (fieldToSchema (.mk fn ex ts .float64T)).type = "number") ∧
    ((fieldToSchema (.mk fn ex ts .intT)).minimum
        = getFloat64Ptr (tagGet ts "json-minimum") ∧
     (fieldToSchema (.mk fn ex ts .intT)).type = "integer") ∧
    ((fieldToSchema (.mk fn ex ts2 .stringT)).minimum
        = getFloat64Ptr (tagGet ts2 "json-minimum") ∧
     (fieldToSchema (.mk fn ex ts2 .stringT)).type = "number") := by
  refine ⟨?_, ?_, ?_⟩
  · by_cases hdesc : tagGet ts "json-description" = "" <;>
    cases hmax : getFloat64Ptr (tagGet ts "json-maximum") <;>
    cases hmin : getFloat64Ptr (tagGet ts "json-minimum") <;>
    cases hemax : getFloat64Ptr (tagGet ts "json-exclusive-maximum") <;>
    cases hemin : getFloat64Ptr (tagGet ts "json-exclusive-minimum") <;>
    by_cases henum : tagGet ts "json-enum" = "" <;>
    simp [fieldToSchema, typeToSchema, typeKindSwitch, htype, hdesc, hmax, hmin,
      hemax, hemin, henum, JSON.minimum, JSON.maximum, JSON.exclusiveMinimum,
      JSON.exclusiveMaximum, JSON.type, JSON.enum, JSON.modBase, JSON.empty,
      GoField.tags, GoField.ftype]
  · by_cases hdesc : tagGet ts "json-description" = "" <;>
    cases hmax : getFloat64Ptr (tagGet ts "json-maximum") <;>
    cases hmin : getFloat64Ptr (tagGet ts "json-minimum") <;>
    cases hemax : getFloat64Ptr (tagGet ts "json-exclusive-maximum") <;>
    cases hemin : getFloat64Ptr (tagGet ts "json-exclusive-minimum") <;>
    by_cases henum : tagGet ts "json-enum" = "" <;>
    simp [fieldToSchema, typeToSchema, typeKindSwitch, htype, hdesc, hmax, hmin,
      hemax, hemin, henum, JSON.minimum, JSON.maximum, JSON.exclusiveMinimum,
      JSON.exclusiveMaximum, JSON.type, JSON.enum, JSON.modBase, JSON.empty,
      GoField.tags, GoField.ftype]
  · by_cases hdesc : tagGet ts2 "json-description" = "" <;>
    cases hmax : getFloat64Ptr (tagGet ts2 "json-maximum") <;>
    cases hmin : getFloat64Ptr (tagGet ts2 "json-minimum") <;>
    cases hemax : getFloat64Ptr (tagGet ts2 "json-exclusive-maximum") <;>
    cases hemin : getFloat64Ptr (tagGet ts2 "json-exclusive-minimum") <;>
    by_cases henum : tagGet ts2 "json-enum" = "" <;>
    simp [fieldToSchema, typeToSchema, typeKindSwitch, hov, hdesc, hmax, hmin,
      hemax, hemin, henum, JSON.minimum, JSON.maximum, JSON.exclusiveMinimum,
      JSON.exclusiveMaximum, JSON.type, JSON.enum, JSON.modBase, JSON.empty,
      GoField.tags, GoField.ftype]

/-- Witness for C8: Price float64 with json-minimum "0.01" gets
    minimum 1/100; with json-minimum "not-a-number" the minimum is
    absent; both through the same theorem. -/
theorem C8_numeric_bound_tags_witness :
    tagGet [("json-minimum", "0.01")] "json-type" = "" ∧
    tagGet [("json-minimum", "not-a-number")] "json-type" = "" ∧
    tagGet [("json-type", "number"), ("json-minimum", "1.5")] "json-type" = "number" ∧
    getFloat64Ptr (tagGet [("json-minimum", "0.01")] "json-minimum") = some (mkRat 1 100) ∧
    getFloat64Ptr (tagGet [("json-minimum", "not-a-number")] "json-minimum") = none ∧
    ((fieldToSchema (.mk "Price" true [("json-minimum", "0.01")] .float64T)).minimum
        = getFloat64Ptr (tagGet [("json-minimum", "0.01")] "json-minimum") ∧
     (fieldToSchema (.mk "Price" true [("json-minimum", "0.01")] .float64T)).type
        = "number") ∧
    ((fieldToSchema (.mk "Price" true [("json-minimum", "not-a-number")] .float64T)).minimum
        = getFloat64Ptr (tagGet [("json-minimum", "not-a-number")] "json-minimum") ∧
     (fieldToSchema (.mk "Price" true [("json-minimum", "not-a-number")] .float64T)).type
        = "number") := by
  refine ⟨by decide, by decide, by decide, by decide, by decide, ?_, ?_⟩
  · have h := C8_numeric_bound_tags "Price" true [("json-minimum", "0.01")]
      [("json-type", "number"), ("json-minimum", "1.5")] (by decide) (by decide)
    exact ⟨h.1.1, h.1.2.2.2.2⟩
  · have h := C8_numeric_bound_tags "Price" true [("json-minimum", "not-a-number")]
      [("json-type", "number"), ("json-minimum", "1.5")] (by decide) (by decide)
    exact ⟨h.1.1, h.1.2.2.2.2⟩

end StrutModel
